import Mathlib

/-!
Verification of the load-test harness in `reference-question-generator.py`.

The development shallowly embeds the program: the question generators
(`UniqueQuestionGenerator`), the conversation runner and aggregator
(`SimpleTestHarness.test_conversation`, `analyze_results`, `run_load_test`)
and the admission-gate (semaphore) discipline of `run_load_test`.

Modelling conventions:
* Python's global `random` module (a Mersenne Twister seeded by
  `random.seed`) is embedded concretely: MT19937 state passing is explicit,
  and the stdlib entry points used by the program (`seed`, `randint`,
  `choice`, `sample`, all backed by `getrandbits`) are transcribed from
  CPython.  The rejection loop of `_randbelow_with_getrandbits` is
  fuel-bounded, so every draw is an `Option`; `none` models the
  probability-zero event that the loop never terminates.
* Python's salted string hash (`hash(strategy)`, which varies from process
  to process via PYTHONHASHSEED) is a parameter `pyHash : String → Int` of
  the embedding; a single program run fixes one such function.
* `float` latencies and durations are modelled as exact rationals `ℚ`;
  the program only ever sorts, adds, divides and compares them.  The
  percentile index `int(len(latencies)*0.95)` is modelled as
  `(95 * n) / 100` in `ℕ`: for every list length `n ≤ 200000` the double
  rounding of `n * 0.95` (and `n * 0.99`) agrees with the exact floor, so
  the model is exact over any realistic sample count.
* Python's `list.sort()` sorts ascending; it is modelled by
  `List.insertionSort (· ≤ ·)`, which produces the same list (the sorted
  permutation) and reduces in the kernel.
* Dictionaries such as the per-turn result records are modelled as a
  structure; an optional field models presence/absence of the dict key.
-/

/-! ## Python runtime model: MT19937 and the `random` module entry points

Transcribed from CPython `_randommodule.c` (init_genrand, init_by_array,
genrand_uint32, random_seed) and `Lib/random.py` (`Random.randint`,
`Random.choice`, `Random.sample`, `Random._randbelow_with_getrandbits`).
The 624-word generator state is packed into a single natural number,
32 bits per word; `mtGet`/`mtSet` read and write one word. -/

def u32 (n : Nat) : Nat := n % 4294967296

def mtGet (buf i : Nat) : Nat := (buf >>> (32 * i)) % 4294967296

def mtSet (buf i v : Nat) : Nat := buf - (mtGet buf i <<< (32 * i)) + (v <<< (32 * i))

/-- Python `int.bit_length`, by structural recursion on a fuel that the
value itself bounds. -/
def bitLenGo : Nat → Nat → Nat
  | 0, _ => 0
  | fuel+1, n => if n = 0 then 0 else bitLenGo fuel (n / 2) + 1

def bitLen (n : Nat) : Nat := bitLenGo n n

/-- Strict application for kernel reduction: forces the number to a
literal before continuing, so the sequential PRNG state updates evaluate
iteratively instead of building deep thunks. -/
def withNat {α : Type} (n : Nat) (f : Nat → α) : α :=
  Nat.casesOn n (f 0) fun m => f (m + 1)

/-- The loop of `init_genrand(s)`: `mt[i] = u32(1812433253 * (mt[i-1] ^
(mt[i-1] >> 30)) + i)` for `i = 1 .. 623`. -/
def igLoop : Nat → Nat → Nat → Nat → Nat
  | 0, _, buf, _ => buf
  | count+1, i, buf, prev =>
      withNat (u32 (1812433253 * (prev ^^^ (prev >>> 30)) + i)) fun x =>
      withNat (mtSet buf i x) fun buf =>
      withNat (i + 1) fun i =>
      igLoop count i buf x

def initGenrand (s : Nat) : Nat := igLoop 623 1 (u32 s) (u32 s)

/-- The first mixing loop of `init_by_array`, `max(624, len(key))`
iterations over the running word index `i` and key index `j`. -/
def iba1Loop (key : List Nat) : Nat → Nat → Nat → Nat → Nat × Nat
  | 0, buf, i, _ => (buf, i)
  | count+1, buf, i, j =>
      let prev := mtGet buf (i - 1)
      withNat (u32 ((mtGet buf i ^^^ u32 ((prev ^^^ (prev >>> 30)) * 1664525))
          + key.getD j 0 + j)) fun v =>
      withNat (mtSet buf i v) fun buf =>
      withNat (i + 1) fun i =>
      withNat (j + 1) fun j =>
      let (buf, i) := if 624 ≤ i then (mtSet buf 0 (mtGet buf 623), 1) else (buf, i)
      let j := if key.length ≤ j then 0 else j
      iba1Loop key count buf i j

/-- The second mixing loop of `init_by_array`, 623 iterations; the `- i`
is 32-bit wraparound subtraction. -/
def iba2Loop : Nat → Nat → Nat → Nat
  | 0, buf, _ => buf
  | count+1, buf, i =>
      let prev := mtGet buf (i - 1)
      withNat (u32 ((mtGet buf i ^^^ u32 ((prev ^^^ (prev >>> 30)) * 1566083941))
          + 4294967296 - i)) fun v =>
      withNat (mtSet buf i v) fun buf =>
      withNat (i + 1) fun i =>
      let (buf, i) := if 624 ≤ i then (mtSet buf 0 (mtGet buf 623), 1) else (buf, i)
      iba2Loop count buf i

/-- `init_by_array(key)`: seeds from `init_genrand(19650218)`, runs the
two mixing loops and pins the top word to `0x80000000`. -/
def initByArray (key : List Nat) : Nat :=
  let (buf, i) := iba1Loop key (max 624 key.length) (initGenrand 19650218) 1 0
  mtSet (iba2Loop 623 buf i) 0 2147483648

/-- `random_seed` for an integer argument: the absolute value is split
into 32-bit chunks from the right (`[0]` when zero) and fed to
`init_by_array`. -/
def seedChunks : Nat → Nat → List Nat
  | 0, _ => []
  | fuel+1, n => if n = 0 then [] else u32 n :: seedChunks fuel (n / 4294967296)

def seedKey (a : Int) : List Nat :=
  if a.natAbs = 0 then [0] else seedChunks a.natAbs a.natAbs

structure MTState where
  buf : Nat
  mti : Nat

/-- Effect of `random.seed(a)`: a freshly initialised generator whose next
draw regenerates the word block. -/
def pySeed (a : Int) : MTState := ⟨initByArray (seedKey a), 624⟩

/-- The `genrand_uint32` block regeneration ("twist"): for each `kk`,
`y = (mt[kk] & 0x80000000) | (mt[(kk+1)%624] & 0x7fffffff)` and
`mt[kk] = mt[(kk+397)%624] ^ (y >> 1) ^ (0x9908b0df if y odd else 0)`. -/
def twistLoop : Nat → Nat → Nat → Nat
  | 0, buf, _ => buf
  | count+1, buf, kk =>
      let y := (mtGet buf kk &&& 2147483648) ||| (mtGet buf ((kk + 1) % 624) &&& 2147483647)
      withNat (mtGet buf ((kk + 397) % 624) ^^^ (y >>> 1)
          ^^^ (if y % 2 = 1 then 2567483615 else 0)) fun v =>
      withNat (mtSet buf kk v) fun buf =>
      withNat (kk + 1) fun kk =>
      twistLoop count buf kk

def twist (buf : Nat) : Nat := twistLoop 624 buf 0

/-- The `genrand_uint32` output tempering. -/
def temper (y0 : Nat) : Nat :=
  let y := y0 ^^^ (y0 >>> 11)
  let y := y ^^^ ((y <<< 7) &&& 2636928640)
  let y := y ^^^ ((y <<< 15) &&& 4022730752)
  y ^^^ (y >>> 18)

def genrand (st : MTState) : Nat × MTState :=
  if 624 ≤ st.mti then
    let buf := twist st.buf
    (temper (mtGet buf 0), ⟨buf, 1⟩)
  else
    (temper (mtGet st.buf st.mti), ⟨st.buf, st.mti + 1⟩)

/-- The global-`random`-state computations of the program: explicit state
passing over `MTState`, with `Option` for the fuel-bounded rejection loop. -/
abbrev PyRng (α : Type) := StateT MTState Option α

def pySeedAction (a : Int) : PyRng Unit := fun _ => some ((), pySeed a)

/-- `getrandbits(k)` for `1 ≤ k ≤ 32`: one word, top `k` bits. -/
def getrandbits (k : Nat) : PyRng Nat := fun st =>
  let (y, st') := genrand st
  some (y >>> (32 - k), st')

/-- The rejection loop of `_randbelow_with_getrandbits`; each retry keeps
at least probability 1/2 of success, so 64 units of fuel fail only with
probability `2⁻⁶⁴` — `none` stands for that divergence. -/
def randbelowGo (k : Nat) (n : Nat) : Nat → PyRng Nat
  | 0 => fun _ => none
  | fuel+1 => do
      let r ← getrandbits k
      if r < n then pure r else randbelowGo k n fuel

def randbelow (n : Nat) : PyRng Nat :=
  if n = 0 then pure 0 else randbelowGo (bitLen n) n 64

/-- `random.randint(a, b)` = `randrange(a, b+1)` = `a + _randbelow(b-a+1)`. -/
def randint (a b : Nat) : PyRng Nat := do
  let r ← randbelow (b - a + 1)
  pure (a + r)

/-- `random.choice(seq)` = `seq[_randbelow(len(seq))]`; every call site
passes a nonempty literal list, so the out-of-range default is inert. -/
def pyChoice {α : Type} [Inhabited α] (seq : List α) : PyRng α := do
  let j ← randbelow seq.length
  pure (seq.getD j default)

/-- One selection step of `random.sample`'s pool algorithm. -/
def samplePoolGo (n : Nat) : Nat → Nat → List String → List String → PyRng (List String)
  | 0, _, _, acc => pure acc.reverse
  | k+1, i, pool, acc => do
      let j ← randbelow (n - i)
      let x := pool.getD j ""
      let pool := pool.set j (pool.getD (n - i - 1) "")
      samplePoolGo n k (i + 1) pool (x :: acc)

/-- `random.sample(population, k)`: for the population sizes the program
uses (8 ≤ setsize = 21) CPython takes the pool-copy branch, selecting `k`
elements by partial Fisher–Yates. -/
def pySample (population : List String) (k : Nat) : PyRng (List String) :=
  samplePoolGo population.length k 0 population []

/-! ## `hashlib.md5(...).hexdigest()` (RFC 1321), used by `technical_questions` -/

def not32 (x : Nat) : Nat := 4294967295 - x

def rotl32 (x s : Nat) : Nat := ((x <<< s) &&& 4294967295) ||| (x >>> (32 - s))

def md5K : List Nat :=
  [3614090360, 3905402710, 606105819, 3250441966, 4118548399, 1200080426, 2821735955,
   4249261313, 1770035416, 2336552879, 4294925233, 2304563134, 1804603682, 4254626195,
   2792965006, 1236535329, 4129170786, 3225465664, 643717713, 3921069994, 3593408605,
   38016083, 3634488961, 3889429448, 568446438, 3275163606, 4107603335, 1163531501,
   2850285829, 4243563512, 1735328473, 2368359562, 4294588738, 2272392833, 1839030562,
   4259657740, 2763975236, 1272893353, 4139469664, 3200236656, 681279174, 3936430074,
   3572445317, 76029189, 3654602809, 3873151461, 530742520, 3299628645, 4096336452,
   1126891415, 2878612391, 4237533241, 1700485571, 2399980690, 4293915773, 2240044497,
   1873313359, 4264355552, 2734768916, 1309151649, 4149444226, 3174756917, 718787259,
   3951481745]

def md5S : List Nat :=
  [7, 12, 17, 22, 7, 12, 17, 22, 7, 12, 17, 22, 7, 12, 17, 22,
   5, 9, 14, 20, 5, 9, 14, 20, 5, 9, 14, 20, 5, 9, 14, 20,
   4, 11, 16, 23, 4, 11, 16, 23, 4, 11, 16, 23, 4, 11, 16, 23,
   6, 10, 15, 21, 6, 10, 15, 21, 6, 10, 15, 21, 6, 10, 15, 21]

def utf8Bytes (c : Char) : List Nat :=
  let n := c.toNat
  if n < 128 then [n]
  else if n < 2048 then [192 + n / 64, 128 + n % 64]
  else if n < 65536 then [224 + n / 4096, 128 + (n / 64) % 64, 128 + n % 64]
  else [240 + n / 262144, 128 + (n / 4096) % 64, 128 + (n / 64) % 64, 128 + n % 64]

def strBytes (s : String) : List Nat := (s.data.map utf8Bytes).flatten

def md5Pad (msg : List Nat) : List Nat :=
  let zeros := (56 + 64 - (msg.length + 1) % 64) % 64
  let lenBits := (8 * msg.length) % 18446744073709551616
  msg ++ [128] ++ List.replicate zeros 0 ++ (List.range 8).map (fun i => (lenBits >>> (8 * i)) % 256)

def leWord (block : List Nat) (j : Nat) : Nat :=
  block.getD (4 * j) 0 + 256 * block.getD (4 * j + 1) 0 + 65536 * block.getD (4 * j + 2) 0 +
    16777216 * block.getD (4 * j + 3) 0

def md5Step (block : List Nat) (st : Nat × Nat × Nat × Nat) (i : Nat) : Nat × Nat × Nat × Nat :=
  let (a, b, c, d) := st
  let (f, g) :=
    if i < 16 then ((b &&& c) ||| (not32 b &&& d), i)
    else if i < 32 then ((d &&& b) ||| (not32 d &&& c), (5 * i + 1) % 16)
    else if i < 48 then (b ^^^ c ^^^ d, (3 * i + 5) % 16)
    else (c ^^^ (b ||| not32 d), (7 * i) % 16)
  let f := u32 (f + a + md5K.getD i 0 + leWord block g)
  (d, u32 (b + rotl32 f (md5S.getD i 0)), b, c)

def md5Block (st : Nat × Nat × Nat × Nat) (block : List Nat) : Nat × Nat × Nat × Nat :=
  let (a0, b0, c0, d0) := st
  let (a, b, c, d) := (List.range 64).foldl (md5Step block) st
  (u32 (a0 + a), u32 (b0 + b), u32 (c0 + c), u32 (d0 + d))

def chunks64 : Nat → List Nat → List (List Nat)
  | 0, _ => []
  | _+1, [] => []
  | fuel+1, l => l.take 64 :: chunks64 fuel (l.drop 64)

def hexDigit (n : Nat) : Char := if n < 10 then Char.ofNat (48 + n) else Char.ofNat (87 + n)

def wordHex (w : Nat) : List Char :=
  ((List.range 4).map (fun i =>
    let b := (w >>> (8 * i)) % 256
    [hexDigit (b / 16), hexDigit (b % 16)])).flatten

def md5hex (s : String) : String :=
  let padded := md5Pad (strBytes s)
  let (a, b, c, d) := (chunks64 padded.length padded).foldl md5Block
    (1732584193, 4023233417, 2562383102, 271733878)
  ⟨wordHex a ++ wordHex b ++ wordHex c ++ wordHex d⟩

/-! ## `UniqueQuestionGenerator`

Each strategy reseeds the global generator (`random.seed(seed)`) and then
draws its random parameters; the embedding passes the `MTState` explicitly
in the same order. -/

def historical_questions (seed : Int) : PyRng (List String) := do
  pySeedAction seed
  let year ← randint 1000 2023
  pure [
    s!"What major events occurred in the year {year}?",
    s!"Who were the influential leaders during {year}?",
    s!"What was the state of technology in {year}?",
    s!"Describe the political climate of {year}.",
    s!"What were the major conflicts or peace treaties around {year}?",
    s!"How did people communicate in {year}?",
    s!"What was daily life like for common people in {year}?",
    s!"What scientific discoveries were made around {year}?"]

def mathematical_questions (seed : Int) : PyRng (List String) := do
  pySeedAction seed
  let a ← randint 100 9999
  let b ← randint 100 9999
  let c ← randint 2 50
  pure [
    s!"What is {a} multiplied by {b}?",
    s!"If you divide the previous result by {c}, what do you get?",
    s!"What are the prime factors of {a}?",
    s!"Is {b} a perfect square? If not, what's the nearest one?",
    s!"Calculate {a} to the power of {c % 5 + 2}.",
    s!"What is the greatest common divisor of {a} and {b}?",
    s!"Convert {a} to base-{c % 7 + 2} notation.",
    s!"How many ways can you partition {c} into positive integers?"]

def geoCities : List String :=
  ["Tokyo", "Delhi", "Shanghai", "São Paulo", "Mexico City", "Cairo",
   "Mumbai", "Beijing", "Dhaka", "Osaka", "Karachi", "Istanbul",
   "Buenos Aires", "Kolkata", "Lagos", "Manila", "Tianjin", "Rio"]

def geoCountries : List String :=
  ["Brazil", "Russia", "India", "China", "South Africa", "Mexico",
   "Indonesia", "Turkey", "Saudi Arabia", "Argentina", "Egypt",
   "Nigeria", "Japan", "Germany", "France", "Italy", "Canada"]

def geographical_questions (seed : Int) : PyRng (List String) := do
  pySeedAction seed
  let city ← pyChoice geoCities
  let country ← pyChoice geoCountries
  let distance ← randint 500 5000
  pure [
    s!"What is the population of {city}?",
    s!"What are the neighboring countries of {country}?",
    s!"What is the main river flowing through or near {city}?",
    s!"If you travel {distance}km east from {city}, where might you be?",
    s!"What is the climate type in {country}?",
    s!"What are the major exports of {country}?",
    s!"What language is primarily spoken in {city}?",
    s!"What is the time zone of {city}?"]

def hypoObjects : List String := ["cars", "trees", "buildings", "phones", "books", "computers"]

def hypoProperties : List String := ["invisible", "magnetic", "telepathic", "indestructible", "sentient"]

def hypoNumbers : List Nat := [10, 50, 100, 1000, 10000]

def hypothetical_questions (seed : Int) : PyRng (List String) := do
  pySeedAction seed
  let obj ← pyChoice hypoObjects
  let prop ← pyChoice hypoProperties
  let num ← pyChoice hypoNumbers
  let percent ← randint 10 90
  pure [
    s!"What would happen if all {obj} suddenly became {prop}?",
    s!"How would society change if {percent}% of people could read minds?",
    s!"Design a city that could accommodate {num} million people in 1 square km.",
    s!"What if gravity was {percent}% stronger?",
    s!"How would communication work if sound didn't exist?",
    s!"What if {obj} could only last for 24 hours before disappearing?",
    s!"Describe an economy where {obj} are the primary currency.",
    s!"What safety measures would we need if everyone could fly?"]

def techComplexities : List String := ["O(n)", "O(n²)", "O(log n)", "O(n log n)"]

def technical_questions (seed : Int) : PyRng (List String) := do
  pySeedAction seed
  let array_size ← randint 10 1000
  -- the source binds `complexity = random.choice(...)` but never interpolates
  -- it; the draw still advances the generator state
  let _ ← pyChoice techComplexities
  let port ← randint 3000 9999
  let hash_input := (md5hex (toString seed)).take 8
  pure [
    s!"What's the best sorting algorithm for {array_size} nearly-sorted integers?",
    s!"How would you design a cache for {array_size} frequently accessed items?",
    s!"Explain the trade-offs of using a hash table with {array_size} buckets.",
    s!"What happens when you try to connect to port {port}?",
    s!"Design a URL shortener that generates codes like '{hash_input}'.",
    s!"How would you find duplicates in an array of {array_size} elements?",
    s!"What's the space complexity of storing {array_size} items in a binary tree?",
    s!"How would you implement rate limiting for {array_size} requests per second?"]

/-- `mixed_questions(seed)`: reseeds, then for each of the five literal
strategy tags calls `generate_by_strategy(strategy, seed + hash(strategy))`
— which dispatches to the corresponding generator (see the
`generate_by_strategy_*` dispatch lemmas) — and samples 2 of its 8
questions against the generator state that call left behind; finally
truncates the ten collected questions to 8.  `pyHash` is the process's
salted string hash. -/
def mixed_questions (pyHash : String → Int) (seed : Int) : PyRng (List String) := do
  pySeedAction seed
  let hq ← historical_questions (seed + pyHash "historical")
  let s1 ← pySample hq 2
  let maq ← mathematical_questions (seed + pyHash "mathematical")
  let s2 ← pySample maq 2
  let gq ← geographical_questions (seed + pyHash "geographical")
  let s3 ← pySample gq 2
  let hyq ← hypothetical_questions (seed + pyHash "hypothetical")
  let s4 ← pySample hyq 2
  let tq ← technical_questions (seed + pyHash "technical")
  let s5 ← pySample tq 2
  pure ((s1 ++ (s2 ++ (s3 ++ (s4 ++ s5)))).take 8)

def generate_by_strategy (pyHash : String → Int) (strategy : String) (seed : Int) :
    PyRng (List String) :=
  if strategy = "historical" then historical_questions seed
  else if strategy = "mathematical" then mathematical_questions seed
  else if strategy = "geographical" then geographical_questions seed
  else if strategy = "hypothetical" then hypothetical_questions seed
  else if strategy = "technical" then technical_questions seed
  else mixed_questions pyHash seed

/-- Run a generator in a fresh process: the ambient generator state is
immaterial because every strategy begins with `random.seed(seed)`
(see `generate_by_strategy_state_independent`), so it is fixed to
`pySeed 0`. -/
def runFresh {α : Type} (g : PyRng α) : Option α := (g (pySeed 0)).map Prod.fst

/-! ## `SimpleTestHarness.test_conversation`

The transport call is an opaque `Endpoint` capability: given the
accumulated message history it either returns the reply with optional
usage metadata, or fails (non-200 status or a raised exception — both take
the same failure path in the source).  The measured wall-clock latency of
the exchange is data the environment supplies, so it travels with the
result. -/

structure Message where
  role : String
  content : String
deriving DecidableEq

inductive ExchangeResult
  | ok (reply : String) (usage : Option Nat) (latency : ℚ)
  | err (errorMsg : String) (latency : ℚ)
deriving DecidableEq

def isOk : ExchangeResult → Bool
  | .ok .. => true
  | .err .. => false

/-- One entry of `conversation_results`: a Python dict whose keys are
`question_num`, `latency`, `success`, and — depending on the branch that
built it — `tokens` or `error`; `Option` fields model key presence. -/
structure Req where
  question_num : Nat
  latency : ℚ
  success : Bool
  tokens : Option Nat
  error : Option String
deriving DecidableEq

def defaultReq : Req := ⟨0, 0, true, none, none⟩

/-- The `for i, question in enumerate(questions)` loop: append the user
message, call the endpoint on the history, record the turn; on success
append the assistant reply and continue, on failure record the error and
`break`. -/
def test_conversation_go (endpoint : List Message → ExchangeResult) :
    List String → List Message → Nat → List Req
  | [], _, _ => []
  | question :: rest, messages, i =>
    let messages := messages ++ [⟨"user", question⟩]
    match endpoint messages with
    | .ok reply usage latency =>
        { question_num := i + 1, latency := latency, success := true,
          tokens := some (usage.getD 0), error := none } ::
          test_conversation_go endpoint rest (messages ++ [⟨"assistant", reply⟩]) (i + 1)
    | .err e latency =>
        [{ question_num := i + 1, latency := latency, success := false,
           tokens := none, error := some e }]

structure ConversationOutcome where
  client_id : Nat
  results : List Req
deriving DecidableEq

def test_conversation (endpoint : List Message → ExchangeResult) (client_id : Nat)
    (questions : List String) : ConversationOutcome :=
  ⟨client_id, test_conversation_go endpoint questions [] 0⟩

/-! ## `run_load_test`: per-client seeding and fan-out

`run_client` derives the seed `client_id * 1337`, generates the questions
and truncates to 5.  The outcome value of each client is independent of
the interleaving and of the ambient generator state (every strategy
reseeds first), so the fan-out is modelled as a map over client ids; the
admission gate, which bounds timing but not values, is modelled separately
below.  The `getD []` collapses the probability-zero fuel exhaustion of a
draw to an empty question list. -/

def client_seed (client_id : Nat) : Int := client_id * 1337

def client_questions (pyHash : String → Int) (strategy : String) (client_id : Nat) :
    List String :=
  ((runFresh (generate_by_strategy pyHash strategy (client_seed client_id))).getD []).take 5

def run_client (pyHash : String → Int) (endpoint : List Message → ExchangeResult)
    (strategy : String) (client_id : Nat) : ConversationOutcome :=
  test_conversation endpoint client_id (client_questions pyHash strategy client_id)

def run_load_test_outcomes (pyHash : String → Int) (endpoint : List Message → ExchangeResult)
    (num_clients : Nat) (strategy : String) : List ConversationOutcome :=
  (List.range num_clients).map (run_client pyHash endpoint strategy)

/-! ## `analyze_results` -/

structure LatencyStats where
  minL : ℚ
  maxL : ℚ
  avg : ℚ
  p50 : ℚ
  p95 : ℚ
  p99 : Option ℚ
deriving DecidableEq

structure TokenStats where
  total_tokens : Nat
  avg_tokens_per_request : Nat
deriving DecidableEq

/-- The returned `stats` dict: either the no-data error form or the full
summary.  Numeric values are kept exact; the source's `f"{x:.3f}s"` /
percentage formatting is display-only. -/
inductive Report
  | noData (duration_seconds : ℚ) (failed_requests : Nat)
  | stats (duration_seconds : ℚ) (total_clients total_requests successful_requests
      failed_requests : Nat) (success_rate throughput_rps : ℚ)
      (latency_stats : LatencyStats) (token_stats : Option TokenStats)
deriving DecidableEq

def allRequests (results : List ConversationOutcome) : List Req :=
  (results.map (·.results)).flatten

def successfulReqs (results : List ConversationOutcome) : List Req :=
  (allRequests results).filter (·.success)

def failedReqs (results : List ConversationOutcome) : List Req :=
  (allRequests results).filter (fun r => !r.success)

/-- Python `min(l)` / `max(l)` on a nonempty list. -/
def listMin : List ℚ → ℚ
  | [] => 0
  | x :: xs => xs.foldl min x

def listMax : List ℚ → ℚ
  | [] => 0
  | x :: xs => xs.foldl max x

/-- `latencies` after `latencies.sort()`: ascending order. -/
def sortedLatencies (results : List ConversationOutcome) : List ℚ :=
  ((successfulReqs results).map (·.latency)).insertionSort (· ≤ ·)

/-- The `latency_stats` entry.  `int(len(latencies)*0.95)` is `(95*n)/100`
(exact for realistic `n`, see the header); `len(latencies)//2` is `n / 2`;
p99 only when more than 100 samples. -/
def latencyStatsOf (results : List ConversationOutcome) : LatencyStats :=
  let latencies := sortedLatencies results
  let n := latencies.length
  { minL := listMin latencies
    maxL := listMax latencies
    avg := latencies.sum / n
    p50 := latencies.getD (n / 2) 0
    p95 := latencies.getD ((95 * n) / 100) 0
    p99 := if 100 < n then some (latencies.getD ((99 * n) / 100) 0) else none }

/-- The `token_stats` entry: guarded by `any('tokens' in r for r in
successful)`; the average is integer division. -/
def tokenStatsOf (results : List ConversationOutcome) : Option TokenStats :=
  if (successfulReqs results).any (fun r => r.tokens.isSome) then
    let total := ((successfulReqs results).map (fun r => r.tokens.getD 0)).sum
    some ⟨total, total / (successfulReqs results).length⟩
  else none

def analyze_results (results : List ConversationOutcome) (duration : ℚ) : Report :=
  if (successfulReqs results) = [] then
    Report.noData duration (failedReqs results).length
  else
    Report.stats duration results.length (allRequests results).length
      (successfulReqs results).length (failedReqs results).length
      ((((successfulReqs results).length : ℚ) / ((allRequests results).length : ℚ)) * 100)
      (((allRequests results).length : ℚ) / duration)
      (latencyStatsOf results)
      (tokenStatsOf results)

def run_load_test (pyHash : String → Int) (endpoint : List Message → ExchangeResult)
    (num_clients : Nat) (strategy : String) (duration : ℚ) : Report :=
  analyze_results (run_load_test_outcomes pyHash endpoint num_clients strategy) duration

/-! ## The admission gate of `run_load_test`

`asyncio.Semaphore(max_concurrent)` with `async with semaphore:` wrapped
around the whole conversation of each client task.  Modelled as a
transition system: a task is admitted (acquire, only when the counter is
positive) before any request and leaves (release) when its conversation
finishes on any path.  The scheduler may interleave tasks arbitrarily. -/

inductive TaskPhase
  | pending
  | running
  | finished
deriving DecidableEq

structure SchedState where
  sem : Nat
  phases : List TaskPhase
deriving DecidableEq

def initSched (max_concurrent num_clients : Nat) : SchedState :=
  ⟨max_concurrent, List.replicate num_clients .pending⟩

/-- Admissible scheduler moves: `acquire` admits a pending task when the
semaphore counter is positive (decrementing it); `release` retires a
running task (incrementing the counter).  The out-of-range default
`.finished` makes both moves impossible at bad indices. -/
inductive SchedStep : SchedState → SchedState → Prop
  | acquire (s : SchedState) (i : Nat) (hph : s.phases.getD i .finished = .pending)
      (hsem : 0 < s.sem) : SchedStep s ⟨s.sem - 1, s.phases.set i .running⟩
  | release (s : SchedState) (i : Nat) (hph : s.phases.getD i .finished = .running) :
      SchedStep s ⟨s.sem + 1, s.phases.set i .finished⟩

def SchedReachable (max_concurrent num_clients : Nat) (s : SchedState) : Prop :=
  Relation.ReflTransGen SchedStep (initSched max_concurrent num_clients) s

/-- Number of conversations currently holding the gate. -/
def countRunning (s : SchedState) : Nat := s.phases.count .running

/-! ## Stub endpoints, hash functions and concrete aggregator inputs
used by the claim theorems, counterexamples and witnesses

`pyHashA` and `pyHashB` are two possible per-process salted string
hashes: CPython randomises `hash(str)` with PYTHONHASHSEED, so two
separate runs of the program evaluate `hash(strategy)` to unrelated
values. -/

def pyHashA : String → Int := fun _ => 0

def pyHashB : String → Int := fun _ => 1

/-- Number of user messages in a history; the `t`-th endpoint call of a
conversation sees exactly `t` user messages. -/
def countUser (msgs : List Message) : Nat :=
  (msgs.filter (fun m => m.role == "user")).length

/-- An endpoint stub whose behaviour depends only on the turn number, as
in the spec's "Endpoint is stubbed to fail on turn 3 of 5". -/
def turnEndpoint (tr : Nat → ExchangeResult) : List Message → ExchangeResult :=
  fun msgs => tr (countUser msgs)

/-- Turn results that succeed on turns 1 and 2 and fail from turn 3 on. -/
def witTurnResult : Nat → ExchangeResult := fun t =>
  if t < 3 then .ok "reply" (some 20) 1 else .err "Status 500" 1

/-- An endpoint that always succeeds, reporting 20 tokens. -/
def epOkW : List Message → ExchangeResult := fun _ => .ok "ok" (some 20) 1

/-- An endpoint that succeeds but reports no usage metadata at all. -/
def epNoUsage : List Message → ExchangeResult := fun _ => .ok "reply" none 1

/-- Five successful turns with latencies 0.3, 0.1, 0.5, 0.2, 0.4 s. -/
def witOutcome2 : List ConversationOutcome :=
  [⟨0, [⟨1, mkRat 3 10, true, some 10, none⟩, ⟨2, mkRat 1 10, true, some 10, none⟩,
        ⟨3, mkRat 5 10, true, some 10, none⟩, ⟨4, mkRat 2 10, true, some 10, none⟩,
        ⟨5, mkRat 4 10, true, some 10, none⟩]⟩]

/-- One failed turn and no successful ones. -/
def witOutcome3 : List ConversationOutcome :=
  [⟨0, [⟨1, 2, false, none, some "Status 500"⟩]⟩]

/-- Two successful records, one with 41 tokens, one with no tokens key. -/
def witOutcome7 : List ConversationOutcome :=
  [⟨0, [⟨1, 1, true, some 41, none⟩, ⟨2, 1, true, none, none⟩]⟩]

/-! ## Dispatch and purity facts about the generator -/

theorem generate_by_strategy_historical (pyHash : String → Int) (seed : Int) :
    generate_by_strategy pyHash "historical" seed = historical_questions seed := rfl

theorem generate_by_strategy_mathematical (pyHash : String → Int) (seed : Int) :
    generate_by_strategy pyHash "mathematical" seed = mathematical_questions seed := rfl

theorem generate_by_strategy_geographical (pyHash : String → Int) (seed : Int) :
    generate_by_strategy pyHash "geographical" seed = geographical_questions seed := rfl

theorem generate_by_strategy_hypothetical (pyHash : String → Int) (seed : Int) :
    generate_by_strategy pyHash "hypothetical" seed = hypothetical_questions seed := rfl

theorem generate_by_strategy_technical (pyHash : String → Int) (seed : Int) :
    generate_by_strategy pyHash "technical" seed = technical_questions seed := rfl

/-- Every strategy starts with `random.seed(seed)`, so the result (value
and final state alike) does not depend on the ambient generator state. -/
theorem generate_by_strategy_state_independent (pyHash : String → Int) (strategy : String)
    (seed : Int) (st st' : MTState) :
    generate_by_strategy pyHash strategy seed st = generate_by_strategy pyHash strategy seed st' := by
  unfold generate_by_strategy
  split
  · rfl
  split
  · rfl
  split
  · rfl
  split
  · rfl
  split
  · rfl
  · rfl

set_option maxRecDepth 40000

/-! ## Claims about the question generator: C5, C6, C9 -/

/-- Claim C5 (code bug evidence): the generator is not deterministic
across program runs.  For the fallback "mixed" composite (the program's
default strategy) at seed 0, the generated sequence differs between a
process whose string hash is `pyHashA` and one whose string hash is
`pyHashB`, because `mixed_questions` derives sub-seeds as
`seed + hash(strategy)`.  The sequences differ already in their first
element. -/
theorem C5_theorem : runFresh (generate_by_strategy pyHashA "mixed" 0)
    ≠ runFresh (generate_by_strategy pyHashB "mixed" 0) := by decide

/-- Claim C6, counterexample: two distinct clients can receive exactly the
same generated prompt sequence within one run.  With strategy
"historical", clients 19 and 27 (seeds 19·1337 = 25403 and 27·1337 =
36099) draw the same random year 1513, so their question lists coincide;
any run with `clientCount ≥ 28` contains both. -/
theorem C6_counterexample :
    client_questions pyHashA "historical" 19 = client_questions pyHashA "historical" 27
      ∧ (19 : Nat) ≠ 27 := by decide

/-- Claim C6, amended: each client `i` receives the deterministic seed
`i × 1337`; distinct clients receive distinct seeds, and for a fixed
process hash the prompt sequence of a client is a function of
`(strategy, seed)` alone (independent of the ambient generator state), so
per-client prompt sets are reproducible across runs with the same hash;
but distinct seeds do not guarantee distinct prompt sequences (see the
counterexample). -/
theorem C6_amended_theorem (pyHash : String → Int) (strategy : String) (i j : Nat)
    (hij : i ≠ j) :
    client_seed i = (i : Int) * 1337 ∧
    client_seed i ≠ client_seed j ∧
    ∀ st st' : MTState,
      generate_by_strategy pyHash strategy (client_seed i) st
        = generate_by_strategy pyHash strategy (client_seed i) st' := by
  refine ⟨rfl, ?_, fun st st' => generate_by_strategy_state_independent pyHash strategy _ st st'⟩
  intro hcontr
  apply hij
  have h2 : (i : Int) * 1337 = (j : Int) * 1337 := hcontr
  omega

theorem C6_witness :
    client_seed 0 = (0 : Int) * 1337 ∧
    client_seed 0 ≠ client_seed 1 ∧
    ∀ st st' : MTState,
      generate_by_strategy pyHashA "historical" (client_seed 0) st
        = generate_by_strategy pyHashA "historical" (client_seed 0) st' :=
  C6_amended_theorem pyHashA "historical" 0 1 (by decide)

/-- Claim C9: a strategy tag outside the five recognised ones falls back
to the mixed composite generator instead of failing. -/
theorem C9_theorem (pyHash : String → Int) (strategy : String) (seed : Int)
    (h : strategy ∉ ["historical", "mathematical", "geographical", "hypothetical", "technical"]) :
    generate_by_strategy pyHash strategy seed = mixed_questions pyHash seed := by
  simp only [List.mem_cons, not_or] at h
  obtain ⟨h1, h2, h3, h4, h5, _⟩ := h
  unfold generate_by_strategy
  rw [if_neg h1, if_neg h2, if_neg h3, if_neg h4, if_neg h5]

theorem C9_witness :
    "frobnicate" ∉ ["historical", "mathematical", "geographical", "hypothetical", "technical"] ∧
    generate_by_strategy pyHashA "frobnicate" 0 = mixed_questions pyHashA 0 :=
  ⟨by decide, C9_theorem pyHashA "frobnicate" 0 (by decide)⟩

/-! ## Claim C1: fail-fast conversation structure -/

theorem countUser_user (msgs : List Message) (q : String) :
    countUser (msgs ++ [⟨"user", q⟩]) = countUser msgs + 1 := by
  simp [countUser, List.filter_append]

theorem countUser_assistant (msgs : List Message) (r : String) :
    countUser (msgs ++ [⟨"assistant", r⟩]) = countUser msgs := by
  simp [countUser, List.filter_append]

theorem isOk_false_iff (r : ExchangeResult) :
    isOk r = false ↔ ∃ e lat, r = .err e lat := by
  cases r <;> simp [isOk]

theorem isOk_true_iff (r : ExchangeResult) :
    isOk r = true ↔ ∃ reply usage lat, r = .ok reply usage lat := by
  cases r <;> simp [isOk]

/-- Behaviour of the conversation loop under a turn-indexed endpoint that
succeeds strictly before turn `k` and fails at turn `k`: the recorded
turns are exactly `i+1 .. k` with all but the last successful and the
last failed with an error descriptor. -/
theorem go_turn_spec (tr : Nat → ExchangeResult) (k : Nat)
    (hfail : isOk (tr k) = false) :
    ∀ (qs : List String) (msgs : List Message) (i : Nat),
      countUser msgs = i → i < k → k ≤ i + qs.length →
      (∀ t, i < t → t < k → isOk (tr t) = true) →
      (test_conversation_go (turnEndpoint tr) qs msgs i).length = k - i ∧
      (test_conversation_go (turnEndpoint tr) qs msgs i).map (fun r => r.question_num)
          = List.range' (i + 1) (k - i) ∧
      (∀ j, j + 1 < k - i →
        ((test_conversation_go (turnEndpoint tr) qs msgs i).getD j defaultReq).success = true) ∧
      ((test_conversation_go (turnEndpoint tr) qs msgs i).getD (k - i - 1) defaultReq).success
          = false ∧
      ((test_conversation_go (turnEndpoint tr) qs msgs i).getD (k - i - 1) defaultReq).error.isSome
          = true := by
  intro qs
  induction qs with
  | nil =>
      intro msgs i hcu hik hk hsucc
      simp only [List.length_nil] at hk
      omega
  | cons q rest ih =>
      intro msgs i hcu hik hk hsucc
      have hcu1 : countUser (msgs ++ [⟨"user", q⟩]) = i + 1 := by
        rw [countUser_user, hcu]
      have hep : turnEndpoint tr (msgs ++ [⟨"user", q⟩]) = tr (i + 1) := by
        simp [turnEndpoint, hcu1]
      by_cases hki : k = i + 1
      · obtain ⟨e, lat, herr⟩ := (isOk_false_iff (tr k)).mp hfail
        have herr1 : tr (i + 1) = .err e lat := by rw [← hki]; exact herr
        have hsub : k - i = 1 := by omega
        simp only [test_conversation_go, hep, herr1, hsub]
        refine ⟨rfl, by simp [List.range'], ?_, rfl, rfl⟩
        intro j hj
        omega
      · have hik1 : i + 1 < k := by omega
        obtain ⟨reply, usage, lat, hok⟩ :=
          (isOk_true_iff _).mp (hsucc (i + 1) (by omega) hik1)
        have hcu2 : countUser ((msgs ++ [⟨"user", q⟩]) ++ [⟨"assistant", reply⟩]) = i + 1 := by
          rw [countUser_assistant, hcu1]
        have hk2 : k ≤ (i + 1) + rest.length := by
          simp only [List.length_cons] at hk
          omega
        obtain ⟨ihlen, ihmap, ihsucc, ihlast, iherr⟩ :=
          ih ((msgs ++ [⟨"user", q⟩]) ++ [⟨"assistant", reply⟩]) (i + 1) hcu2 hik1 hk2
            (fun t ht1 ht2 => hsucc t (by omega) ht2)
        simp only [test_conversation_go, hep, hok]
        refine ⟨?_, ?_, ?_, ?_, ?_⟩
        · simp only [List.length_cons, ihlen]
          omega
        · simp only [List.map_cons, ihmap]
          have h1 : k - i = (k - (i + 1)) + 1 := by omega
          rw [h1, List.range'_succ]
        · intro j hj
          match j with
          | 0 => rfl
          | j + 1 =>
              simp only [List.getD_cons_succ]
              exact ihsucc j (by omega)
        · have h2 : k - i - 1 = (k - (i + 1) - 1) + 1 := by omega
          rw [h2]
          simp only [List.getD_cons_succ]
          exact ihlast
        · have h2 : k - i - 1 = (k - (i + 1) - 1) + 1 := by omega
          rw [h2]
          simp only [List.getD_cons_succ]
          exact iherr

/-- Fail-fast invariant for an arbitrary endpoint: every recorded turn
except possibly the final one is successful (a failure ends the list). -/
theorem go_fail_fast (endpoint : List Message → ExchangeResult) :
    ∀ (qs : List String) (msgs : List Message) (i j : Nat),
      j + 1 < (test_conversation_go endpoint qs msgs i).length →
      ((test_conversation_go endpoint qs msgs i).getD j defaultReq).success = true := by
  intro qs
  induction qs with
  | nil =>
      intro msgs i j h
      simp [test_conversation_go] at h
  | cons q rest ih =>
      intro msgs i j h
      simp only [test_conversation_go] at h ⊢
      cases hep : endpoint (msgs ++ [⟨"user", q⟩]) with
      | ok reply usage lat =>
          rw [hep] at h
          have h' : j + 1 < (test_conversation_go endpoint rest
              ((msgs ++ [⟨"user", q⟩]) ++ [⟨"assistant", reply⟩]) (i + 1)).length + 1 := h
          cases j with
          | zero => rfl
          | succ j => exact ih _ _ j (by omega)
      | err e lat =>
          rw [hep] at h
          have h' : j + 1 < 1 := h
          omega

/-- A conversation never records more turns than it has prompts. -/
theorem go_length_le (endpoint : List Message → ExchangeResult) :
    ∀ (qs : List String) (msgs : List Message) (i : Nat),
      (test_conversation_go endpoint qs msgs i).length ≤ qs.length := by
  intro qs
  induction qs with
  | nil => intro msgs i; simp [test_conversation_go]
  | cons q rest ih =>
      intro msgs i
      simp only [test_conversation_go]
      cases endpoint (msgs ++ [⟨"user", q⟩]) with
      | ok reply usage lat => exact Nat.succ_le_succ (ih _ _)
      | err e lat => exact Nat.succ_le_succ (Nat.zero_le _)

/-- Claim C1, counterexample to its final conjunct: with one planned
prompt and an endpoint that fails immediately, the recorded Turn sequence
has length equal to the planned count (1) although not every turn
succeeded — a conversation that fails on its last planned turn still has
a full-length Turn list. -/
theorem C1_counterexample :
    (test_conversation (fun _ => ExchangeResult.err "Status 500" 1) 7 ["q1"]).results.length
        = 1 ∧
    ¬ (∀ r ∈ (test_conversation (fun _ => ExchangeResult.err "Status 500" 1) 7 ["q1"]).results,
        r.success = true) := by decide

/-- Claim C1, amended: if the stubbed Endpoint succeeds on turns `1..k-1`
and fails on turn `k ≤ n`, the outcome has exactly `k` Turns with 1-based
indices `1..k`, all but the `k`-th successful, and the `k`-th failed with
an error descriptor; moreover (arbitrary endpoint) at most the final
recorded Turn can be failed — hence the Turn sequence has length `n` only
if every turn before the `n`-th succeeded (the `n`-th itself may have
failed, which is the correction to the claim's last conjunct). -/
theorem C1_amended_theorem (tr : Nat → ExchangeResult) (qs : List String) (k : Nat)
    (hk1 : 1 ≤ k) (hkn : k ≤ qs.length)
    (hsucc : ∀ t, t < k → 1 ≤ t → isOk (tr t) = true)
    (hfail : isOk (tr k) = false) :
    ((test_conversation (turnEndpoint tr) 0 qs).results.length = k ∧
     (test_conversation (turnEndpoint tr) 0 qs).results.map (fun r => r.question_num)
        = List.range' 1 k ∧
     (∀ j, j + 1 < k →
       ((test_conversation (turnEndpoint tr) 0 qs).results.getD j defaultReq).success = true) ∧
     ((test_conversation (turnEndpoint tr) 0 qs).results.getD (k - 1) defaultReq).success
        = false ∧
     ((test_conversation (turnEndpoint tr) 0 qs).results.getD (k - 1) defaultReq).error.isSome
        = true) ∧
    ∀ (endpoint : List Message → ExchangeResult) (qs2 : List String) (j : Nat),
      j + 1 < (test_conversation endpoint 0 qs2).results.length →
      ((test_conversation endpoint 0 qs2).results.getD j defaultReq).success = true := by
  constructor
  · have h := go_turn_spec tr k hfail qs [] 0 rfl (by omega) (by simpa using hkn)
      (fun t ht1 ht2 => hsucc t ht2 (by omega))
    simpa [test_conversation] using h
  · intro endpoint qs2 j hj
    exact go_fail_fast endpoint qs2 [] 0 j hj

theorem C1_witness :
    (((test_conversation (turnEndpoint witTurnResult) 0 ["q1", "q2", "q3", "q4", "q5"]).results.length
        = 3 ∧
      (test_conversation (turnEndpoint witTurnResult) 0
          ["q1", "q2", "q3", "q4", "q5"]).results.map (fun r => r.question_num)
        = List.range' 1 3 ∧
      (∀ j, j + 1 < 3 →
        ((test_conversation (turnEndpoint witTurnResult) 0
            ["q1", "q2", "q3", "q4", "q5"]).results.getD j defaultReq).success = true) ∧
      ((test_conversation (turnEndpoint witTurnResult) 0
          ["q1", "q2", "q3", "q4", "q5"]).results.getD (3 - 1) defaultReq).success = false ∧
      ((test_conversation (turnEndpoint witTurnResult) 0
          ["q1", "q2", "q3", "q4", "q5"]).results.getD (3 - 1) defaultReq).error.isSome = true) ∧
     ∀ (endpoint : List Message → ExchangeResult) (qs2 : List String) (j : Nat),
       j + 1 < (test_conversation endpoint 0 qs2).results.length →
       ((test_conversation endpoint 0 qs2).results.getD j defaultReq).success = true) :=
  C1_amended_theorem witTurnResult ["q1", "q2", "q3", "q4", "q5"] 3 (by decide) (by decide)
    (by decide) (by decide)

/-! ## Claims C2 and C3: the latency statistics and the no-data case -/

theorem foldl_min_le_init (l : List ℚ) : ∀ a : ℚ, l.foldl min a ≤ a := by
  induction l with
  | nil => intro a; simp
  | cons x xs ih => intro a; exact le_trans (ih (min a x)) (min_le_left a x)

theorem foldl_min_le_mem (l : List ℚ) : ∀ (a x : ℚ), x ∈ l → l.foldl min a ≤ x := by
  induction l with
  | nil => intro a x hx; simp at hx
  | cons y ys ih =>
      intro a x hx
      rcases List.mem_cons.mp hx with heq | hx'
      · subst heq
        exact le_trans (foldl_min_le_init ys (min a x)) (min_le_right a x)
      · exact ih (min a y) x hx'

theorem foldl_min_mem (l : List ℚ) : ∀ a : ℚ, l.foldl min a = a ∨ l.foldl min a ∈ l := by
  induction l with
  | nil => intro a; left; rfl
  | cons x xs ih =>
      intro a
      show xs.foldl min (min a x) = a ∨ xs.foldl min (min a x) ∈ x :: xs
      rcases ih (min a x) with heq | hmem
      · rcases min_choice a x with h | h
        · left; rw [heq, h]
        · right; rw [heq, h]; exact List.mem_cons_self x xs
      · right; exact List.mem_cons_of_mem x hmem

theorem listMin_le (l : List ℚ) (x : ℚ) (hx : x ∈ l) : listMin l ≤ x := by
  cases l with
  | nil => simp at hx
  | cons y ys =>
      rcases List.mem_cons.mp hx with heq | hx'
      · subst heq; exact foldl_min_le_init ys x
      · exact foldl_min_le_mem ys y x hx'

theorem listMin_mem (l : List ℚ) (h : l ≠ []) : listMin l ∈ l := by
  cases l with
  | nil => exact absurd rfl h
  | cons y ys =>
      show ys.foldl min y ∈ y :: ys
      rcases foldl_min_mem ys y with heq | hmem
      · rw [heq]; exact List.mem_cons_self y ys
      · exact List.mem_cons_of_mem y hmem

theorem foldl_max_init_le (l : List ℚ) : ∀ a : ℚ, a ≤ l.foldl max a := by
  induction l with
  | nil => intro a; simp
  | cons x xs ih => intro a; exact le_trans (le_max_left a x) (ih (max a x))

theorem foldl_max_mem_le (l : List ℚ) : ∀ (a x : ℚ), x ∈ l → x ≤ l.foldl max a := by
  induction l with
  | nil => intro a x hx; simp at hx
  | cons y ys ih =>
      intro a x hx
      rcases List.mem_cons.mp hx with heq | hx'
      · subst heq
        exact le_trans (le_max_right a x) (foldl_max_init_le ys (max a x))
      · exact ih (max a y) x hx'

theorem foldl_max_mem (l : List ℚ) : ∀ a : ℚ, l.foldl max a = a ∨ l.foldl max a ∈ l := by
  induction l with
  | nil => intro a; left; rfl
  | cons x xs ih =>
      intro a
      show xs.foldl max (max a x) = a ∨ xs.foldl max (max a x) ∈ x :: xs
      rcases ih (max a x) with heq | hmem
      · rcases max_choice a x with h | h
        · left; rw [heq, h]
        · right; rw [heq, h]; exact List.mem_cons_self x xs
      · right; exact List.mem_cons_of_mem x hmem

theorem listMax_le (l : List ℚ) (x : ℚ) (hx : x ∈ l) : x ≤ listMax l := by
  cases l with
  | nil => simp at hx
  | cons y ys =>
      rcases List.mem_cons.mp hx with heq | hx'
      · subst heq; exact foldl_max_init_le ys x
      · exact foldl_max_mem_le ys y x hx'

theorem listMax_mem (l : List ℚ) (h : l ≠ []) : listMax l ∈ l := by
  cases l with
  | nil => exact absurd rfl h
  | cons y ys =>
      show ys.foldl max y ∈ y :: ys
      rcases foldl_max_mem ys y with heq | hmem
      · rw [heq]; exact List.mem_cons_self y ys
      · exact List.mem_cons_of_mem y hmem

/-- Nearest-rank index: the spec's `floor(percentile × count)` with an
exact rational percentile `a / b` equals the code's natural division. -/
theorem floor_pct (a b n : Nat) :
    Nat.floor (((a : ℚ) / (b : ℚ)) * (n : ℚ)) = (a * n) / b := by
  rw [div_mul_eq_mul_div, show ((a : ℚ) * (n : ℚ)) = (((a * n : ℕ)) : ℚ) by push_cast; ring,
    @Nat.floor_div_nat ℚ _ _ (((a * n : ℕ)) : ℚ) b, Nat.floor_natCast]

theorem sortedLatencies_perm (results : List ConversationOutcome) :
    List.Perm (sortedLatencies results) ((successfulReqs results).map (fun r => r.latency)) :=
  List.perm_insertionSort _ _

theorem sortedLatencies_length (results : List ConversationOutcome) :
    (sortedLatencies results).length = (successfulReqs results).length :=
  (sortedLatencies_perm results).length_eq.trans (List.length_map _ _)

/-- Claim C2: on a nonempty successful set, the report's latency block is
computed from the ascending sort of the successful latencies by
nearest-rank indexing `floor(p × n)` (p50 at `n/2`, p95 at
`floor(0.95 n)`), p99 is present exactly when more than 100 successful
samples exist, and min/max/mean are the true extrema and arithmetic mean
of the successful latencies. -/
theorem C2_theorem (results : List ConversationOutcome) (duration : ℚ)
    (h : successfulReqs results ≠ []) :
    List.Sorted (· ≤ ·) (sortedLatencies results) ∧
    List.Perm (sortedLatencies results) ((successfulReqs results).map (fun r => r.latency)) ∧
    analyze_results results duration = Report.stats duration results.length
      (allRequests results).length (successfulReqs results).length (failedReqs results).length
      ((((successfulReqs results).length : ℚ) / ((allRequests results).length : ℚ)) * 100)
      (((allRequests results).length : ℚ) / duration)
      (latencyStatsOf results) (tokenStatsOf results) ∧
    (latencyStatsOf results).p50
        = (sortedLatencies results).getD
            (Nat.floor (((1 : ℚ) / (2 : ℚ)) * ((sortedLatencies results).length : ℚ))) 0 ∧
    (latencyStatsOf results).p95
        = (sortedLatencies results).getD
            (Nat.floor (((95 : ℚ) / (100 : ℚ)) * ((sortedLatencies results).length : ℚ))) 0 ∧
    (100 < (successfulReqs results).length →
      (latencyStatsOf results).p99
        = some ((sortedLatencies results).getD
            (Nat.floor (((99 : ℚ) / (100 : ℚ)) * ((sortedLatencies results).length : ℚ))) 0)) ∧
    ((successfulReqs results).length ≤ 100 → (latencyStatsOf results).p99 = none) ∧
    (latencyStatsOf results).minL ∈ sortedLatencies results ∧
    (∀ x ∈ sortedLatencies results, (latencyStatsOf results).minL ≤ x) ∧
    (latencyStatsOf results).maxL ∈ sortedLatencies results ∧
    (∀ x ∈ sortedLatencies results, x ≤ (latencyStatsOf results).maxL) ∧
    (latencyStatsOf results).avg
        = ((successfulReqs results).map (fun r => r.latency)).sum
            / (((successfulReqs results).length : ℚ)) := by
  have hperm := sortedLatencies_perm results
  have hlen := sortedLatencies_length results
  have hne : sortedLatencies results ≠ [] := by
    intro hnil
    have := hlen
    rw [hnil] at this
    exact h (List.eq_nil_of_length_eq_zero this.symm)
  have e50 : ((1 : ℚ) / (2 : ℚ)) = (((1 : ℕ) : ℚ) / ((2 : ℕ) : ℚ)) := by norm_num
  have e95 : ((95 : ℚ) / (100 : ℚ)) = (((95 : ℕ) : ℚ) / ((100 : ℕ) : ℚ)) := by norm_num
  have e99 : ((99 : ℚ) / (100 : ℚ)) = (((99 : ℕ) : ℚ) / ((100 : ℕ) : ℚ)) := by norm_num
  refine ⟨List.sorted_insertionSort _ _, hperm, ?_, ?_, ?_, ?_, ?_, ?_, ?_, ?_, ?_, ?_⟩
  · simp only [analyze_results, if_neg h]
  · rw [e50, floor_pct]
    simp only [latencyStatsOf, one_mul]
  · rw [e95, floor_pct]
    simp only [latencyStatsOf]
  · intro h100
    rw [e99, floor_pct]
    simp only [latencyStatsOf]
    rw [if_pos (by rw [hlen]; exact h100)]
  · intro h100
    simp only [latencyStatsOf]
    rw [if_neg (by rw [hlen]; omega)]
  · exact listMin_mem _ hne
  · exact fun x hx => listMin_le _ x hx
  · exact listMax_mem _ hne
  · exact fun x hx => listMax_le _ x hx
  · show (sortedLatencies results).sum / ((sortedLatencies results).length : ℚ) = _
    rw [hperm.sum_eq, hlen]

/-- Claim C3: with zero successful Turns the report is the explicit
no-data form carrying only the duration and failed count, and the failed
count is the whole request count (nothing is lost and nothing else is
computed). -/
theorem C3_theorem (results : List ConversationOutcome) (duration : ℚ)
    (h : successfulReqs results = []) :
    analyze_results results duration = Report.noData duration (failedReqs results).length ∧
    (failedReqs results).length = (allRequests results).length := by
  constructor
  · simp only [analyze_results, if_pos h]
  · have hall : ∀ r ∈ allRequests results, ¬ (r.success = true) := by
      intro r hr hsucc
      have : r ∈ successfulReqs results := List.mem_filter.mpr ⟨hr, hsucc⟩
      rw [h] at this
      simp at this
    have : (allRequests results).filter (fun r => !r.success) = allRequests results := by
      rw [List.filter_eq_self]
      intro r hr
      simp [hall r hr]
    rw [failedReqs, this]

/-! ## Claim C4: request accounting of a full run -/

theorem run_client_results_length_le (pyHash : String → Int)
    (endpoint : List Message → ExchangeResult) (strategy : String) (i : Nat) :
    (run_client pyHash endpoint strategy i).results.length ≤ 5 :=
  le_trans (go_length_le endpoint (client_questions pyHash strategy i) [] 0)
    (List.length_take_le 5 _)

theorem allRequests_partition (results : List ConversationOutcome) :
    (successfulReqs results).length + (failedReqs results).length
      = (allRequests results).length :=
  (List.length_eq_length_filter_add _).symm

theorem allRequests_run_length_le (pyHash : String → Int)
    (endpoint : List Message → ExchangeResult) (n : Nat) (strategy : String) :
    (allRequests (run_load_test_outcomes pyHash endpoint n strategy)).length ≤ n * 5 := by
  rw [allRequests, List.length_flatten]
  have hmem : ∀ x ∈ (((run_load_test_outcomes pyHash endpoint n strategy).map
      (·.results)).map List.length), x ≤ 5 := by
    intro x hx
    obtain ⟨rs, hrs, hlen⟩ := List.mem_map.mp hx
    obtain ⟨o, ho, hres⟩ := List.mem_map.mp hrs
    obtain ⟨i, _, hcl⟩ := List.mem_map.mp ho
    rw [← hlen, ← hres, ← hcl]
    exact run_client_results_length_le pyHash endpoint strategy i
  have hsum := List.sum_le_card_nsmul _ 5 hmem
  simp only [List.length_map, run_load_test_outcomes, List.length_range, smul_eq_mul] at hsum
  exact hsum

/-- Claim C4: for any run, successful + failed = total, total never
exceeds `clientCount × 5` (the planned per-conversation turn count), the
reported throughput is total turns divided by duration, and the failed
count is never dropped (the noData report still carries it). -/
theorem C4_theorem (pyHash : String → Int) (endpoint : List Message → ExchangeResult)
    (num_clients : Nat) (strategy : String) (duration : ℚ) (_hn : 1 ≤ num_clients) :
    ((successfulReqs (run_load_test_outcomes pyHash endpoint num_clients strategy)).length
        + (failedReqs (run_load_test_outcomes pyHash endpoint num_clients strategy)).length
        = (allRequests (run_load_test_outcomes pyHash endpoint num_clients strategy)).length) ∧
    (allRequests (run_load_test_outcomes pyHash endpoint num_clients strategy)).length
        ≤ num_clients * 5 ∧
    (∀ d tc tot succ fail rate thr ls ts,
      run_load_test pyHash endpoint num_clients strategy duration
          = Report.stats d tc tot succ fail rate thr ls ts →
      succ + fail = tot ∧ tot ≤ num_clients * 5 ∧ thr = (tot : ℚ) / duration) ∧
    (∀ d fail,
      run_load_test pyHash endpoint num_clients strategy duration = Report.noData d fail →
      fail = (failedReqs (run_load_test_outcomes pyHash endpoint num_clients strategy)).length)
    := by
  refine ⟨allRequests_partition _,
    allRequests_run_length_le pyHash endpoint num_clients strategy, ?_, ?_⟩
  · intro d tc tot succ fail rate thr ls ts heq
    rw [run_load_test] at heq
    by_cases hs : successfulReqs (run_load_test_outcomes pyHash endpoint num_clients strategy)
        = []
    · rw [analyze_results, if_pos hs] at heq
      exact absurd heq (by simp)
    · rw [analyze_results, if_neg hs] at heq
      injection heq with h1 h2 h3 h4 h5 h6 h7 h8 h9
      subst h3
      subst h4
      subst h5
      subst h7
      exact ⟨allRequests_partition _,
        allRequests_run_length_le pyHash endpoint num_clients strategy, rfl⟩
  · intro d fail heq
    rw [run_load_test] at heq
    by_cases hs : successfulReqs (run_load_test_outcomes pyHash endpoint num_clients strategy)
        = []
    · rw [analyze_results, if_pos hs] at heq
      injection heq with h1 h2
      exact h2.symm
    · rw [analyze_results, if_neg hs] at heq
      exact absurd heq (by simp)

theorem C4_witness :
    (1 : Nat) ≤ 1 ∧
    ((successfulReqs (run_load_test_outcomes pyHashA epOkW 1 "historical")).length
        + (failedReqs (run_load_test_outcomes pyHashA epOkW 1 "historical")).length
        = (allRequests (run_load_test_outcomes pyHashA epOkW 1 "historical")).length) ∧
    (allRequests (run_load_test_outcomes pyHashA epOkW 1 "historical")).length = 5 :=
  ⟨by decide, (C4_theorem pyHashA epOkW 1 "historical" 10 (by decide)).1, by decide⟩

/-! ## Claim C7: token statistics -/

/-- Claim C7: with at least one successful Turn the report carries the
`token_stats` entry of `tokenStatsOf`; that entry is present precisely
when some successful record has a `tokens` key, and then it consists of
the sum of the token counts over successful records and the
integer-divided per-request average. -/
theorem C7_theorem (results : List ConversationOutcome) (duration : ℚ)
    (h : successfulReqs results ≠ []) :
    analyze_results results duration = Report.stats duration results.length
      (allRequests results).length (successfulReqs results).length (failedReqs results).length
      ((((successfulReqs results).length : ℚ) / ((allRequests results).length : ℚ)) * 100)
      (((allRequests results).length : ℚ) / duration)
      (latencyStatsOf results) (tokenStatsOf results) ∧
    ((tokenStatsOf results).isSome = true
        ↔ ∃ r ∈ successfulReqs results, r.tokens.isSome = true) ∧
    ∀ ts, tokenStatsOf results = some ts →
      ts.total_tokens = ((successfulReqs results).map (fun r => r.tokens.getD 0)).sum ∧
      ts.avg_tokens_per_request = ts.total_tokens / (successfulReqs results).length := by
  refine ⟨by simp only [analyze_results, if_neg h], ?_, ?_⟩
  · by_cases hany : (successfulReqs results).any (fun r => r.tokens.isSome) = true
    · rw [tokenStatsOf, if_pos hany]
      exact iff_of_true rfl (List.any_eq_true.mp hany)
    · rw [tokenStatsOf, if_neg hany]
      have hnone : ¬ ∃ r ∈ successfulReqs results, r.tokens.isSome = true := by
        rw [← List.any_eq_true]
        exact hany
      exact iff_of_false (by simp) hnone
  · intro ts hts
    rw [tokenStatsOf] at hts
    by_cases hany : (successfulReqs results).any (fun r => r.tokens.isSome) = true
    · rw [if_pos hany] at hts
      have h1 := Option.some.inj hts
      rw [← h1]
      exact ⟨rfl, rfl⟩
    · rw [if_neg hany] at hts
      exact absurd hts (by simp)

theorem C7_witness :
    successfulReqs witOutcome7 ≠ [] ∧
    ((tokenStatsOf witOutcome7).isSome = true
        ↔ ∃ r ∈ successfulReqs witOutcome7, r.tokens.isSome = true) ∧
    tokenStatsOf witOutcome7 = some ⟨41, 20⟩ :=
  ⟨by decide, (C7_theorem witOutcome7 3 (by decide)).2.1, by decide⟩

/-! ## Claim C10: successful records always carry a `tokens` key -/

theorem go_success_tokens (endpoint : List Message → ExchangeResult) :
    ∀ (qs : List String) (msgs : List Message) (i : Nat),
      ∀ r ∈ test_conversation_go endpoint qs msgs i,
        r.success = true → r.tokens.isSome = true := by
  intro qs
  induction qs with
  | nil => intro msgs i r hr; simp [test_conversation_go] at hr
  | cons q rest ih =>
      intro msgs i r hr hsucc
      simp only [test_conversation_go] at hr
      cases hep : endpoint (msgs ++ [⟨"user", q⟩]) with
      | ok reply usage lat =>
          rw [hep] at hr
          rcases List.mem_cons.mp hr with heq | htail
          · subst heq; rfl
          · exact ih _ _ r htail hsucc
      | err e lat =>
          rw [hep] at hr
          have heq := List.mem_singleton.mp hr
          subst heq
          simp at hsucc

/-- Claim C10: every successful Turn record produced by a run carries a
`tokens` key (defaulting to 0 when the response has no usage metadata),
so whenever at least one request succeeded the guard on token statistics
is satisfied and the report includes them. -/
theorem C10_theorem (pyHash : String → Int) (endpoint : List Message → ExchangeResult)
    (num_clients : Nat) (strategy : String) :
    (∀ o ∈ run_load_test_outcomes pyHash endpoint num_clients strategy,
      ∀ r ∈ o.results, r.success = true → r.tokens.isSome = true) ∧
    (successfulReqs (run_load_test_outcomes pyHash endpoint num_clients strategy) ≠ [] →
      (tokenStatsOf (run_load_test_outcomes pyHash endpoint num_clients strategy)).isSome
        = true) := by
  have hpart1 : ∀ o ∈ run_load_test_outcomes pyHash endpoint num_clients strategy,
      ∀ r ∈ o.results, r.success = true → r.tokens.isSome = true := by
    intro o ho r hr hsucc
    obtain ⟨i, _, hcl⟩ := List.mem_map.mp ho
    rw [← hcl] at hr
    exact go_success_tokens endpoint _ [] 0 r hr hsucc
  refine ⟨hpart1, ?_⟩
  intro hne
  obtain ⟨r, hr⟩ := List.exists_mem_of_ne_nil _ hne
  obtain ⟨hrall, hrsucc⟩ := List.mem_filter.mp hr
  obtain ⟨rs, hrs, hrrs⟩ := List.mem_flatten.mp hrall
  obtain ⟨o, ho, hres⟩ := List.mem_map.mp hrs
  rw [← hres] at hrrs
  have htok := hpart1 o ho r hrrs hrsucc
  rw [tokenStatsOf, if_pos (List.any_eq_true.mpr ⟨r, hr, htok⟩)]
  rfl

theorem C10_witness :
    (∀ o ∈ run_load_test_outcomes pyHashA epNoUsage 1 "historical",
      ∀ r ∈ o.results, r.success = true → r.tokens.isSome = true) ∧
    successfulReqs (run_load_test_outcomes pyHashA epNoUsage 1 "historical") ≠ [] ∧
    (tokenStatsOf (run_load_test_outcomes pyHashA epNoUsage 1 "historical")).isSome = true ∧
    tokenStatsOf (run_load_test_outcomes pyHashA epNoUsage 1 "historical") = some ⟨0, 0⟩ :=
  ⟨(C10_theorem pyHashA epNoUsage 1 "historical").1, by decide,
    (C10_theorem pyHashA epNoUsage 1 "historical").2 (by decide), by decide⟩

/-! ## Claim C8: the admission gate bounds live concurrency -/

theorem count_running_set_running (l : List TaskPhase) (i : Nat)
    (h : l.getD i .finished = .pending) :
    (l.set i .running).count .running = l.count .running + 1 := by
  induction l generalizing i with
  | nil => simp [List.getD] at h
  | cons x xs ih =>
      cases i with
      | zero =>
          rw [List.getD_cons_zero] at h
          subst h
          simp [List.count_cons]
      | succ i =>
          rw [List.getD_cons_succ] at h
          rw [List.set_cons_succ, List.count_cons, List.count_cons, ih i h]
          omega

theorem count_running_set_finished (l : List TaskPhase) (i : Nat)
    (h : l.getD i .finished = .running) :
    (l.set i .finished).count .running + 1 = l.count .running := by
  induction l generalizing i with
  | nil => simp [List.getD] at h
  | cons x xs ih =>
      cases i with
      | zero =>
          rw [List.getD_cons_zero] at h
          subst h
          simp [List.count_cons]
      | succ i =>
          rw [List.getD_cons_succ] at h
          rw [List.set_cons_succ, List.count_cons, List.count_cons, ← ih i h]
          omega

/-- Gate invariant: the number of running conversations plus the free
semaphore units is constant, equal to `max_concurrent`. -/
theorem sched_invariant (max_concurrent num_clients : Nat) (s : SchedState)
    (h : SchedReachable max_concurrent num_clients s) :
    countRunning s + s.sem = max_concurrent := by
  induction h with
  | refl =>
      simp [initSched, countRunning, List.count_replicate]
  | tail hsteps hstep ih =>
      rename_i b c
      cases hstep with
      | acquire i hph hsem =>
          have hcount := count_running_set_running b.phases i hph
          simp only [countRunning] at ih ⊢
          rw [hcount]
          omega
      | release i hph =>
          have hcount := count_running_set_finished b.phases i hph
          simp only [countRunning] at ih ⊢
          omega

/-- Claim C8: in every reachable scheduler state of a run with more
clients than admission units, the number of conversations inside the gate
never exceeds `max_concurrent`. -/
theorem C8_theorem (max_concurrent num_clients : Nat)
    (_hcl : max_concurrent < num_clients) (s : SchedState)
    (h : SchedReachable max_concurrent num_clients s) :
    countRunning s ≤ max_concurrent := by
  have hinv := sched_invariant max_concurrent num_clients s h
  omega

theorem C8_witness : countRunning ⟨0, [TaskPhase.running, TaskPhase.pending]⟩ ≤ 1 :=
  C8_theorem 1 2 (by decide) _
    (Relation.ReflTransGen.single (SchedStep.acquire (initSched 1 2) 0 (by decide) (by decide)))

/-! ## Witnesses for C2 and C3 -/

theorem C2_witness :
    successfulReqs witOutcome2 ≠ [] ∧
    (latencyStatsOf witOutcome2).p50
        = (sortedLatencies witOutcome2).getD
            (Nat.floor (((1 : ℚ) / (2 : ℚ)) * ((sortedLatencies witOutcome2).length : ℚ))) 0 ∧
    sortedLatencies witOutcome2
        = [mkRat 1 10, mkRat 2 10, mkRat 3 10, mkRat 4 10, mkRat 5 10] ∧
    (latencyStatsOf witOutcome2).p50 = mkRat 3 10 :=
  ⟨by decide, (C2_theorem witOutcome2 10 (by decide)).2.2.2.1, by decide, by decide⟩

theorem C3_witness :
    successfulReqs witOutcome3 = [] ∧
    analyze_results witOutcome3 5 = Report.noData 5 (failedReqs witOutcome3).length ∧
    (failedReqs witOutcome3).length = (allRequests witOutcome3).length ∧
    (failedReqs witOutcome3).length = 1 :=
  ⟨by decide, (C3_theorem witOutcome3 5 (by decide)).1, (C3_theorem witOutcome3 5 (by decide)).2,
    by decide⟩
